import Mathlib

/-!
Verification of the go-xattr-fuse attribute overlay (src/go-xattr-fuse.go).

A `xattrFs` wraps a backing `pathfs.FileSystem` and redirects the four
extended-attribute operations (`SetXAttr`, `GetXAttr`, `ListXAttr`,
`RemoveXAttr`) to a process-global bolt database `db`; every other
filesystem method is forwarded to the embedded backing filesystem.

Shallow embedding conventions:
* The bolt database is modelled as `Store := String → Option Bucket`: one
  bucket per path name, absent paths map to `none`.
* A bolt bucket maps binary keys to values, keys unique; it is modelled as
  an association list `List (String × Bytes)` with unique keys, and cursor
  iteration (`c.First()` / `c.Next()`) is iteration over that list.  Bolt
  iterates keys in byte-sorted order; the model iterates in insertion
  order.  The iteration order is abstracted: no claim (and no statement of
  the spec) depends on which total order the cursor uses, only on the set
  of entries visited.
* `bolt.Tx` begin/commit failures are environment events, captured by a
  `TxEnv` record: `beginOK` tells whether `db.Begin(true)` succeeds and
  `commitOK` whether `tx.Commit()` persists.  `CreateBucketIfNotExists`
  fails inside a live write transaction exactly when the bucket name is
  empty (bolt's ErrBucketNameRequired), which is modelled deterministically.
  `Bucket.Put`'s validation is likewise deterministic and is modelled by
  `putOK`: a blank key (ErrKeyRequired), an oversized key (ErrKeyTooLarge)
  or an oversized value (ErrValueTooLarge) makes `Put` store nothing; the
  source discards that error (src line 36) and commits anyway.
* Go byte slices that can be nil are modelled as `Option`; `fuse.Status`
  is an errno-valued integer.
* A Go nil-pointer dereference panic is modelled by `Outcome.panic`: when
  `db.Begin(true)` fails, `boltBucket` returns a nil `*bolt.Tx`, and the
  caller's `defer tx.Rollback()` then invokes `Rollback` on a nil receiver,
  which dereferences the nil transaction and panics at function return.
-/

namespace fuse

/-- fuse.Status is an errno-valued integer status; 0 is success. -/
abbrev Status := Nat

def OK : Status := 0

def ENOENT : Status := 2

def EIO : Status := 5

def EBUSY : Status := 16

end fuse

/-- Attribute values are opaque byte sequences (Go `[]byte` contents). -/
abbrev Bytes := List Nat

/-- A bolt bucket: binary key → value entries with unique keys, in cursor
iteration order (see the header on the abstracted order). -/
abbrev Bucket := List (String × Bytes)

/-- The bolt database: one bucket per path name (`tx.Bucket` lookup);
paths that were never successfully written map to `none`. -/
abbrev Store := String → Option Bucket

/-- The store with no buckets at all (a freshly created database file). -/
def emptyStore : Store := fun _ => none

/-- Pointwise bucket replacement at one path, as performed by a committed
write transaction. -/
def updateStore (db : Store) (p : String) (b : Bucket) : Store :=
  fun q => if q = p then some b else db q

/-- Transaction environment for one attribute operation: whether
`db.Begin(true)` succeeds, and whether `tx.Commit()` persists. -/
structure TxEnv where
  beginOK : Bool
  commitOK : Bool

/-- An uncontended run: the transaction begins and commits normally. -/
def okEnv : TxEnv := ⟨true, true⟩

/-- A contended run: `db.Begin(true)` fails (so the returned `*bolt.Tx`
is nil), while nothing else is wrong. -/
def busyEnv : TxEnv := ⟨false, true⟩

/-- Result of a Go function run: either a normal return, or a runtime
panic (here always the nil-pointer dereference inside the deferred
`tx.Rollback()` when `tx` is nil). -/
inductive Outcome (α : Type) where
  | ok (a : α)
  | panic
  deriving DecidableEq, Repr

/-- The insertion bolt `Bucket.Put` performs once its validation (`putOK`)
has passed: upsert of `key -> value` — an existing equal key is
overwritten in place, a fresh key is added (bolt places it at its sorted
position; the model's iteration order is abstracted, see the header). -/
def bucketPut : Bucket → String → Bytes → Bucket
  | [], key, val => [(key, val)]
  | (k, v) :: rest, key, val =>
    if key = k then (key, val) :: rest
    else (k, v) :: bucketPut rest key val

/-- bolt `Bucket.Delete`: remove the entry with the given key, if present
(keys are unique in a bucket, so removing the first match suffices). -/
def bucketDelete : Bucket → String → Bucket
  | [], _ => []
  | (k, v) :: rest, key => if k = key then rest else (k, v) :: bucketDelete rest key

/-- bolt `Bucket.Put`'s validation: the put is refused — `ErrKeyRequired`,
`ErrKeyTooLarge` or `ErrValueTooLarge` — and stores nothing when the key
is blank, the key exceeds `MaxKeySize` (32768) bytes, or the value exceeds
`MaxValueSize` (2^31 - 2) bytes.  The source discards this error at the
`b.Put([]byte(attr), data)` call (src line 36), so a refused put still
ends in a committed transaction and an `OK` status. -/
def putOK (key : String) (val : Bytes) : Bool :=
  key ≠ "" && key.utf8ByteSize ≤ 32768 && val.length ≤ 2147483646

/-- The cursor scan of `GetXAttr` (src lines 64-68): walk the entries in
cursor order and return the value of the first key equal to `attr`,
`none` (Go nil) when no key matches. -/
def bucketGet : Bucket → String → Option Bytes
  | [], _ => none
  | (k, v) :: rest, attr => if k = attr then some v else bucketGet rest attr

/-- What `boltBucket` (src lines 44-55) hands back to its caller, as the
relevant shape of its `(*bolt.Tx, *bolt.Bucket, *bolt.Cursor, fuse.Status)`
tuple:
* `busy`: `db.Begin(true)` failed; the tuple is `(nil, nil, nil, EBUSY)` —
  note the transaction itself is nil;
* `missing`: the transaction is open but `tx.Bucket(name)` is nil; the
  tuple is `(tx, nil, nil, ENOENT)`;
* `found b`: the tuple is `(tx, b, b.Cursor(), OK)`. -/
inductive BucketLookup where
  | busy
  | missing
  | found (b : Bucket)
  deriving DecidableEq, Repr

/-- boltBucket (src lines 44-55): begin a write transaction, then look the
path's bucket up. -/
def boltBucket (env : TxEnv) (db : Store) (name : String) : BucketLookup :=
  if env.beginOK then
    match db name with
    | none => BucketLookup.missing
    | some b => BucketLookup.found b
  else BucketLookup.busy

/-- SetXAttr (src lines 23-42): begin a write transaction (`EBUSY` on
failure), `CreateBucketIfNotExists` (`EIO` on failure, i.e. on the empty
bucket name), `Put` the attribute — whose error the source discards, so a
put refused by bolt's validation (`putOK`) leaves the bucket's contents
unchanged while the call carries on — then commit (`EIO` on failure,
leaving the store unchanged).  The deferred rollback runs on a live
transaction here, so no branch panics.  The `flags` argument is never
read. -/
def SetXAttr (env : TxEnv) (db : Store) (name attr : String) (data : Bytes)
    (flags : Int) (context : Nat) : fuse.Status × Store :=
  if env.beginOK then
    if name = "" then (fuse.EIO, db)
    else
      let b := (db name).getD []
      let b2 := if putOK attr data then bucketPut b attr data else b
      if env.commitOK then (fuse.OK, updateStore db name b2)
      else (fuse.EIO, db)
  else (fuse.EBUSY, db)

/-- GetXAttr (src lines 57-70): `boltBucket`, `defer tx.Rollback()`, early
return of a non-OK status, otherwise the cursor scan.  In the `busy` case
the deferred rollback runs on the nil transaction and panics; in the
`missing` case it returns `(nil, ENOENT)`.  The payload is `Option Bytes`
(Go nil vs. present slice); the store is returned unchanged — the function
performs no write and rolls its transaction back. -/
def GetXAttr (env : TxEnv) (db : Store) (name attr : String) (context : Nat) :
    Outcome ((Option Bytes × fuse.Status) × Store) :=
  match boltBucket env db name with
  | BucketLookup.busy => Outcome.panic
  | BucketLookup.missing => Outcome.ok ((none, fuse.ENOENT), db)
  | BucketLookup.found b => Outcome.ok ((bucketGet b attr, fuse.OK), db)

/-- ListXAttr (src lines 72-85): like `GetXAttr` but collects every key.
The source allocates `lis := make([]string, 1)` (one empty-string slot),
appends each cursor key, and returns `lis[1:]`; that slicing is modelled
literally.  `busy` panics in the deferred rollback, `missing` returns
`(nil, ENOENT)`. -/
def ListXAttr (env : TxEnv) (db : Store) (name : String) (context : Nat) :
    Outcome ((Option (List String) × fuse.Status) × Store) :=
  match boltBucket env db name with
  | BucketLookup.busy => Outcome.panic
  | BucketLookup.missing => Outcome.ok ((none, fuse.ENOENT), db)
  | BucketLookup.found b =>
    let lis := "" :: b.map Prod.fst
    Outcome.ok ((some (lis.drop 1), fuse.OK), db)

/-- RemoveXAttr (src lines 87-99): `boltBucket`, `defer tx.Rollback()`,
early return of a non-OK status (`busy` again panics in the deferred
rollback on the nil transaction), otherwise `b.Delete` (its error is
discarded) and commit (`EIO` on failure, leaving the store unchanged). -/
def RemoveXAttr (env : TxEnv) (db : Store) (name attr : String) (context : Nat) :
    Outcome (fuse.Status × Store) :=
  match boltBucket env db name with
  | BucketLookup.busy => Outcome.panic
  | BucketLookup.missing => Outcome.ok (fuse.ENOENT, db)
  | BucketLookup.found b =>
    if env.commitOK then Outcome.ok (fuse.OK, updateStore db name (bucketDelete b attr))
    else Outcome.ok (fuse.EIO, db)

/-- A store-mutating attribute call, for stating persistence across a
sequence of subsequent operations (`GetXAttr`/`ListXAttr` never write). -/
inductive Op where
  | set (path name : String) (val : Bytes) (flags : Int)
  | remove (path name : String)
  deriving DecidableEq, Repr

/-- Whether an operation addresses the given (path, attribute-name) pair. -/
def Op.targets : Op → String → String → Bool
  | Op.set p2 n2 _ _, p, n => p2 = p && n2 = n
  | Op.remove p2 n2, p, n => p2 = p && n2 = n

/-- The store after one uncontended mutating call (under `okEnv` a remove
never panics, so the panic branch below is unreachable). -/
def applyOp (db : Store) : Op → Store
  | Op.set p n v fl => (SetXAttr okEnv db p n v fl 0).2
  | Op.remove p n =>
    match RemoveXAttr okEnv db p n 0 with
    | Outcome.ok (_, db2) => db2
    | Outcome.panic => db

/-- The store after a sequence of uncontended mutating calls. -/
def applyOps (db : Store) : List Op → Store
  | [] => db
  | op :: rest => applyOps (applyOp db op) rest

/-- The value stored for attribute `n` of path `p`, read off the store. -/
def lookupAttr (db : Store) (p n : String) : Option Bytes :=
  match db p with
  | none => none
  | some b => bucketGet b n

/-- The invariant bolt maintains for a bucket: keys are unique. -/
def BucketWF (b : Bucket) : Prop :=
  (b.map Prod.fst).Nodup

/-- Repeated `SetXAttr` on one path under `okEnv`, one call per
(name, value) pair, in order. -/
def applySets (db : Store) (p : String) : List (String × Bytes) → Store
  | [] => db
  | (n, v) :: rest => applySets (SetXAttr okEnv db p n v 0 0).2 p rest

/-- Repeated `bucketPut`, one per (key, value) pair, in order. -/
def putMany (b : Bucket) : List (String × Bytes) → Bucket
  | [] => b
  | (n, v) :: rest => putMany (bucketPut b n v) rest

/-- Opaque payload type for `*fuse.Attr` results, carried verbatim. -/
abbrev Attr := Nat

/-- Opaque payload type for `nodefs.File` results, carried verbatim. -/
abbrev File := Nat

/-- Opaque payload type for `fuse.DirEntry` stream elements. -/
abbrev DirEntry := Nat

/-- Opaque payload type for `*time.Time` arguments (nil modelled by
`Option`). -/
abbrev TimeSpec := Nat

/-- Opaque payload type for `*fuse.StatfsOut` results (nil modelled by
`Option`). -/
abbrev StatfsOut := Nat

/-- Opaque payload type for `*fuse.Context` arguments. -/
abbrev Context := Nat

/-- Opaque state of the backing filesystem (the loopback directory). -/
abbrev FsState := Nat

/-- The backing `pathfs.FileSystem` collaborator: one stateful operation
per method the overlay wraps, each mapping the backing state and the
call's arguments to the returned payload/status and the successor backing
state.  It is an arbitrary implementation — the overlay requires nothing
of it. -/
structure FileSystem where
  GetAttr : FsState → String → Context → (Option Attr × fuse.Status) × FsState
  Readlink : FsState → String → Context → (String × fuse.Status) × FsState
  Mknod : FsState → String → Nat → Nat → Context → fuse.Status × FsState
  Mkdir : FsState → String → Nat → Context → fuse.Status × FsState
  Unlink : FsState → String → Context → fuse.Status × FsState
  Rmdir : FsState → String → Context → fuse.Status × FsState
  Symlink : FsState → String → String → Context → fuse.Status × FsState
  Rename : FsState → String → String → Context → fuse.Status × FsState
  Link : FsState → String → String → Context → fuse.Status × FsState
  Chmod : FsState → String → Nat → Context → fuse.Status × FsState
  Chown : FsState → String → Nat → Nat → Context → fuse.Status × FsState
  Truncate : FsState → String → Nat → Context → fuse.Status × FsState
  Open : FsState → String → Nat → Context → (Option File × fuse.Status) × FsState
  OpenDir : FsState → String → Context → (List DirEntry × fuse.Status) × FsState
  Access : FsState → String → Nat → Context → fuse.Status × FsState
  Create : FsState → String → Nat → Nat → Context → (Option File × fuse.Status) × FsState
  Utimens : FsState → String → Option TimeSpec → Option TimeSpec → Context → fuse.Status × FsState
  StatFs : FsState → String → Option StatfsOut × FsState

/-- The world an `xattrFs` call can touch: the global bolt store and the
backing filesystem's state. -/
structure World where
  db : Store
  fs : FsState

/-- GetAttr wrapper (src lines 103-106): log and forward. -/
def xattrFs.GetAttr (bfs : FileSystem) (w : World) (name : String) (c : Context) :
    (Option Attr × fuse.Status) × World :=
  let r := bfs.GetAttr w.fs name c
  (r.1, { w with fs := r.2 })

/-- Readlink wrapper (src lines 107-110): log and forward. -/
def xattrFs.Readlink (bfs : FileSystem) (w : World) (name : String) (c : Context) :
    (String × fuse.Status) × World :=
  let r := bfs.Readlink w.fs name c
  (r.1, { w with fs := r.2 })

/-- Mknod wrapper (src lines 112-115): log and forward. -/
def xattrFs.Mknod (bfs : FileSystem) (w : World) (name : String) (mode dev : Nat)
    (c : Context) : fuse.Status × World :=
  let r := bfs.Mknod w.fs name mode dev c
  (r.1, { w with fs := r.2 })

/-- Mkdir wrapper (src lines 117-120): log and forward. -/
def xattrFs.Mkdir (bfs : FileSystem) (w : World) (name : String) (mode : Nat)
    (c : Context) : fuse.Status × World :=
  let r := bfs.Mkdir w.fs name mode c
  (r.1, { w with fs := r.2 })

/-- Unlink wrapper (src lines 122-125): log and forward; the attribute
store is not consulted or modified. -/
def xattrFs.Unlink (bfs : FileSystem) (w : World) (name : String) (c : Context) :
    fuse.Status × World :=
  let r := bfs.Unlink w.fs name c
  (r.1, { w with fs := r.2 })

/-- Rmdir wrapper (src lines 127-130): log and forward. -/
def xattrFs.Rmdir (bfs : FileSystem) (w : World) (name : String) (c : Context) :
    fuse.Status × World :=
  let r := bfs.Rmdir w.fs name c
  (r.1, { w with fs := r.2 })

/-- Symlink wrapper (src lines 132-135): log and forward. -/
def xattrFs.Symlink (bfs : FileSystem) (w : World) (value linkName : String)
    (c : Context) : fuse.Status × World :=
  let r := bfs.Symlink w.fs value linkName c
  (r.1, { w with fs := r.2 })

/-- Rename wrapper (src lines 137-140): log and forward; the attribute
store is not consulted or modified. -/
def xattrFs.Rename (bfs : FileSystem) (w : World) (oldName newName : String)
    (c : Context) : fuse.Status × World :=
  let r := bfs.Rename w.fs oldName newName c
  (r.1, { w with fs := r.2 })

/-- Link wrapper (src lines 142-145): log and forward. -/
def xattrFs.Link (bfs : FileSystem) (w : World) (oldName newName : String)
    (c : Context) : fuse.Status × World :=
  let r := bfs.Link w.fs oldName newName c
  (r.1, { w with fs := r.2 })

/-- Chmod wrapper (src lines 147-150): log and forward. -/
def xattrFs.Chmod (bfs : FileSystem) (w : World) (name : String) (mode : Nat)
    (c : Context) : fuse.Status × World :=
  let r := bfs.Chmod w.fs name mode c
  (r.1, { w with fs := r.2 })

/-- Chown wrapper (src lines 152-155): log and forward. -/
def xattrFs.Chown (bfs : FileSystem) (w : World) (name : String) (uid gid : Nat)
    (c : Context) : fuse.Status × World :=
  let r := bfs.Chown w.fs name uid gid c
  (r.1, { w with fs := r.2 })

/-- Truncate wrapper (src lines 157-160): log and forward. -/
def xattrFs.Truncate (bfs : FileSystem) (w : World) (name : String) (offset : Nat)
    (c : Context) : fuse.Status × World :=
  let r := bfs.Truncate w.fs name offset c
  (r.1, { w with fs := r.2 })

/-- Open wrapper (src lines 162-165): log and forward. -/
def xattrFs.Open (bfs : FileSystem) (w : World) (name : String) (flags : Nat)
    (c : Context) : (Option File × fuse.Status) × World :=
  let r := bfs.Open w.fs name flags c
  (r.1, { w with fs := r.2 })

/-- OpenDir wrapper (src lines 167-170): log and forward. -/
def xattrFs.OpenDir (bfs : FileSystem) (w : World) (name : String) (c : Context) :
    (List DirEntry × fuse.Status) × World :=
  let r := bfs.OpenDir w.fs name c
  (r.1, { w with fs := r.2 })

/-- Access wrapper (src lines 172-175): log and forward. -/
def xattrFs.Access (bfs : FileSystem) (w : World) (name : String) (mode : Nat)
    (c : Context) : fuse.Status × World :=
  let r := bfs.Access w.fs name mode c
  (r.1, { w with fs := r.2 })

/-- Create wrapper (src lines 177-180): log and forward. -/
def xattrFs.Create (bfs : FileSystem) (w : World) (name : String) (flags mode : Nat)
    (c : Context) : (Option File × fuse.Status) × World :=
  let r := bfs.Create w.fs name flags mode c
  (r.1, { w with fs := r.2 })

/-- Utimens wrapper (src lines 182-185): log and forward. -/
def xattrFs.Utimens (bfs : FileSystem) (w : World) (name : String)
    (atime mtime : Option TimeSpec) (c : Context) : fuse.Status × World :=
  let r := bfs.Utimens w.fs name atime mtime c
  (r.1, { w with fs := r.2 })

/-- StatFs (src lines 187-190): logs the name and returns nil.  Unlike
every other wrapper it does NOT call the backing filesystem. -/
def xattrFs.StatFs (bfs : FileSystem) (w : World) (name : String) :
    Option StatfsOut × World :=
  (none, w)

/-! ### Bucket lemmas -/

theorem bucketGet_put_self (b : Bucket) (k : String) (v : Bytes) :
    bucketGet (bucketPut b k v) k = some v := by
  induction b with
  | nil => simp [bucketPut, bucketGet]
  | cons hd rest ih =>
    obtain ⟨k2, v2⟩ := hd
    by_cases h : k = k2
    · simp [bucketPut, bucketGet, h]
    · simp [bucketPut, bucketGet, h, Ne.symm h, ih]

theorem bucketGet_put_other (b : Bucket) (k m : String) (v : Bytes) (h : m ≠ k) :
    bucketGet (bucketPut b k v) m = bucketGet b m := by
  induction b with
  | nil => simp [bucketPut, bucketGet, Ne.symm h]
  | cons hd rest ih =>
    obtain ⟨k2, v2⟩ := hd
    by_cases h2 : k = k2
    · subst h2
      simp [bucketPut, bucketGet, Ne.symm h]
    · simp [bucketPut, bucketGet, h2, ih]

theorem bucketGet_delete_other (b : Bucket) (k m : String) (h : m ≠ k) :
    bucketGet (bucketDelete b k) m = bucketGet b m := by
  induction b with
  | nil => simp [bucketDelete]
  | cons hd rest ih =>
    obtain ⟨k2, v2⟩ := hd
    by_cases h2 : k2 = k
    · subst h2
      simp [bucketDelete, bucketGet, Ne.symm h]
    · simp [bucketDelete, bucketGet, h2, ih]

theorem bucketGet_eq_none_of_not_mem (b : Bucket) (k : String)
    (h : k ∉ b.map Prod.fst) : bucketGet b k = none := by
  induction b with
  | nil => simp [bucketGet]
  | cons hd rest ih =>
    obtain ⟨k2, v2⟩ := hd
    simp only [List.map_cons, List.mem_cons, not_or] at h
    simp [bucketGet, Ne.symm h.1, ih h.2]

theorem bucketGet_delete_self (b : Bucket) (k : String) (hwf : BucketWF b) :
    bucketGet (bucketDelete b k) k = none := by
  induction b with
  | nil => simp [bucketDelete, bucketGet]
  | cons hd rest ih =>
    obtain ⟨k2, v2⟩ := hd
    simp only [BucketWF, List.map_cons, List.nodup_cons] at hwf
    by_cases h2 : k2 = k
    · subst h2
      simpa [bucketDelete] using bucketGet_eq_none_of_not_mem rest k2 hwf.1
    · simp [bucketDelete, bucketGet, h2, ih hwf.2]

theorem mem_keys_put (b : Bucket) (k m : String) (v : Bytes) :
    m ∈ (bucketPut b k v).map Prod.fst ↔ m = k ∨ m ∈ b.map Prod.fst := by
  induction b with
  | nil => simp [bucketPut]
  | cons hd rest ih =>
    obtain ⟨k2, v2⟩ := hd
    by_cases h : k = k2
    · subst h
      simp [bucketPut]
    · simp only [bucketPut, if_neg h, List.map_cons, List.mem_cons, ih]
      tauto

theorem nodup_keys_put (b : Bucket) (k : String) (v : Bytes) (hwf : BucketWF b) :
    BucketWF (bucketPut b k v) := by
  induction b with
  | nil => simp [bucketPut, BucketWF]
  | cons hd rest ih =>
    obtain ⟨k2, v2⟩ := hd
    simp only [BucketWF, List.map_cons, List.nodup_cons] at hwf
    by_cases h : k = k2
    · subst h
      simpa [bucketPut, BucketWF] using hwf
    · simp only [BucketWF, bucketPut, if_neg h, List.map_cons, List.nodup_cons]
      refine ⟨fun hm => ?_, ih hwf.2⟩
      rcases (mem_keys_put rest k k2 v).1 hm with h2 | h2
      · exact h (h2.symm)
      · exact hwf.1 h2

theorem mem_keys_putMany (b : Bucket) (pairs : List (String × Bytes)) (m : String) :
    m ∈ (putMany b pairs).map Prod.fst ↔
      m ∈ b.map Prod.fst ∨ m ∈ pairs.map Prod.fst := by
  induction pairs generalizing b with
  | nil => simp [putMany]
  | cons hd rest ih =>
    obtain ⟨n, v⟩ := hd
    simp only [putMany, ih, mem_keys_put, List.map_cons, List.mem_cons]
    tauto

theorem nodup_keys_putMany (b : Bucket) (pairs : List (String × Bytes))
    (hwf : BucketWF b) : BucketWF (putMany b pairs) := by
  induction pairs generalizing b with
  | nil => exact hwf
  | cons hd rest ih =>
    obtain ⟨n, v⟩ := hd
    exact ih _ (nodup_keys_put b n v hwf)

/-! ### Store lemmas -/

theorem setXAttr_ok_inv (env : TxEnv) (db db1 : Store) (p n : String) (v : Bytes)
    (fl : Int) (c : Nat) (h : SetXAttr env db p n v fl c = (fuse.OK, db1)) :
    env.beginOK = true ∧ p ≠ "" ∧ env.commitOK = true ∧
      db1 = updateStore db p
        (if putOK n v = true then bucketPut ((db p).getD []) n v
         else (db p).getD []) := by
  unfold SetXAttr at h
  by_cases hb : env.beginOK = true
  · rw [if_pos hb] at h
    by_cases hp : p = ""
    · rw [if_pos hp] at h
      simp only [Prod.mk.injEq] at h
      exact absurd h.1 (by simp [fuse.EIO, fuse.OK])
    · rw [if_neg hp] at h
      by_cases hc : env.commitOK = true
      · simp only [hc, if_true, Prod.mk.injEq] at h
        exact ⟨hb, hp, hc, h.2.symm⟩
      · simp only [if_neg hc, Prod.mk.injEq] at h
        exact absurd h.1 (by simp [fuse.EIO, fuse.OK])
  · rw [if_neg hb] at h
    simp only [Prod.mk.injEq] at h
    exact absurd h.1 (by simp [fuse.EBUSY, fuse.OK])

theorem lookupAttr_update_self (db : Store) (p n : String) (b : Bucket) :
    lookupAttr (updateStore db p b) p n = bucketGet b n := by
  simp [lookupAttr, updateStore]

theorem lookupAttr_update_other (db : Store) (p q n : String) (b : Bucket)
    (h : p ≠ q) : lookupAttr (updateStore db q b) p n = lookupAttr db p n := by
  simp [lookupAttr, updateStore, h]

theorem lookupAttr_applyOp (db : Store) (p n : String) (v : Bytes) (op : Op)
    (h : op.targets p n = false) (hv : lookupAttr db p n = some v) :
    lookupAttr (applyOp db op) p n = some v := by
  cases op with
  | set p2 n2 w fl =>
    simp only [Op.targets, Bool.and_eq_false_iff, decide_eq_false_iff_not] at h
    simp only [applyOp, SetXAttr, okEnv, if_true]
    by_cases hp : p2 = ""
    · simpa [hp] using hv
    · rw [if_neg hp]
      by_cases hq : p = p2
      · subst hq
        rw [lookupAttr_update_self]
        unfold lookupAttr at hv
        cases hdb : db p with
        | none => rw [hdb] at hv; exact absurd hv (by simp)
        | some b =>
          rw [hdb] at hv
          have hv2 : bucketGet b n = some v := hv
          by_cases hput : putOK n2 w = true
          · rw [if_pos hput]
            rcases h with h | h
            · exact absurd rfl h
            · simp only [Option.getD_some]
              rw [bucketGet_put_other b n2 n w (Ne.symm h)]
              exact hv2
          · rw [if_neg hput]
            simpa using hv2
      · rw [lookupAttr_update_other db p p2 n _ hq]
        exact hv
  | remove p2 n2 =>
    simp only [Op.targets, Bool.and_eq_false_iff, decide_eq_false_iff_not] at h
    simp only [applyOp, RemoveXAttr, boltBucket, okEnv, if_true]
    cases hdb : db p2 with
    | none => simpa using hv
    | some b =>
      simp only [if_true]
      by_cases hq : p = p2
      · subst hq
        rcases h with h | h
        · exact absurd rfl h
        · rw [lookupAttr_update_self]
          unfold lookupAttr at hv
          rw [hdb] at hv
          have hv2 : bucketGet b n = some v := hv
          rw [bucketGet_delete_other b n2 n (Ne.symm h)]
          exact hv2
      · rw [lookupAttr_update_other db p p2 n _ hq]
        exact hv

theorem lookupAttr_applyOps (db : Store) (p n : String) (v : Bytes) (ops : List Op)
    (h : ∀ op ∈ ops, op.targets p n = false) (hv : lookupAttr db p n = some v) :
    lookupAttr (applyOps db ops) p n = some v := by
  induction ops generalizing db with
  | nil => exact hv
  | cons op rest ih =>
    exact ih _ (fun o ho => h o (List.mem_cons_of_mem _ ho))
      (lookupAttr_applyOp db p n v op (h op (List.mem_cons_self _ _)) hv)

theorem getXAttr_of_lookup (env : TxEnv) (db : Store) (p n : String) (v : Bytes)
    (c : Nat) (hb : env.beginOK = true) (hv : lookupAttr db p n = some v) :
    GetXAttr env db p n c = Outcome.ok ((some v, fuse.OK), db) := by
  unfold GetXAttr boltBucket
  unfold lookupAttr at hv
  rw [hb]
  cases hdb : db p with
  | none => rw [hdb] at hv; exact absurd hv (by simp)
  | some b =>
    rw [hdb] at hv
    have hv2 : bucketGet b n = some v := hv
    simp [hv2]

/-! ### Claim theorems -/

/-- C1 counterexample: the round trip fails at the blank attribute name.
`Set(a, "", [1])` returns `OK` — bolt's `Put` refuses the blank key with
`ErrKeyRequired`, the source discards that error (src line 36), the bucket
is created empty and the transaction commits — and `Get(a, "")` then
returns no value instead of `[1]`. -/
theorem C1_counterexample :
    SetXAttr okEnv emptyStore "a" "" [1] 0 0
      = (fuse.OK, updateStore emptyStore "a" []) ∧
    GetXAttr okEnv (updateStore emptyStore "a" []) "a" "" 0
      = Outcome.ok ((none, fuse.OK), updateStore emptyStore "a" []) ∧
    (none : Option Bytes) ≠ some [1] :=
  ⟨rfl, rfl, by decide⟩

/-- C1 amended: round trip for names bolt's `Put` accepts — once
`SetXAttr(p,n,v)` has returned `OK` for a name/value pair passing `putOK`
(nonempty name within bolt's key/value size limits), `GetXAttr(p,n)`
returns `v`, and keeps returning `v` after any further committed mutating
calls (sets/removes) that do not address the same path-and-name pair,
i.e. until a subsequent `Set(p,n,_)` or `Remove(p,n)`.  For a name `Put`
refuses, `Set` still reports `OK` but stores nothing, because the source
discards the `Put` error. -/
theorem C1_round_trip (env envG : TxEnv) (db db1 : Store) (p n : String)
    (v : Bytes) (fl : Int) (c cG : Nat) (ops : List Op)
    (hput : putOK n v = true)
    (hset : SetXAttr env db p n v fl c = (fuse.OK, db1))
    (hG : envG.beginOK = true)
    (hops : ∀ op ∈ ops, op.targets p n = false) :
    GetXAttr envG (applyOps db1 ops) p n cG
      = Outcome.ok ((some v, fuse.OK), applyOps db1 ops) := by
  obtain ⟨hb, hp, hc, hdb1⟩ := setXAttr_ok_inv env db db1 p n v fl c hset
  rw [if_pos hput] at hdb1
  subst hdb1
  exact getXAttr_of_lookup envG _ p n v cG hG
    (lookupAttr_applyOps _ p n v ops hops
      (by rw [lookupAttr_update_self]; exact bucketGet_put_self _ n v))

/-- C1 witness: set `x := [1,2]` on path `a`, then set a different name on
the same path and remove `x` from a different path; `Get` still answers
`[1,2]`. -/
theorem C1_round_trip_witness :
    GetXAttr okEnv
        (applyOps (SetXAttr okEnv emptyStore "a" "x" [1, 2] 0 0).2
          [Op.set "a" "y" [3] 0, Op.remove "c" "x"]) "a" "x" 0
      = Outcome.ok ((some [1, 2], fuse.OK),
          applyOps (SetXAttr okEnv emptyStore "a" "x" [1, 2] 0 0).2
            [Op.set "a" "y" [3] 0, Op.remove "c" "x"]) :=
  C1_round_trip okEnv okEnv emptyStore (SetXAttr okEnv emptyStore "a" "x" [1, 2] 0 0).2
    "a" "x" [1, 2] 0 0 0 [Op.set "a" "y" [3] 0, Op.remove "c" "x"] (by decide) rfl rfl
    (by decide)

/-- C2 counterexample: on a never-written path the code answers with status
`ENOENT` — an error status, not a success — from both `GetXAttr` and
`ListXAttr` (`boltBucket` maps the missing bucket to `fuse.ENOENT` and both
callers return that status to the FUSE layer). -/
theorem C2_counterexample :
    GetXAttr okEnv emptyStore "a" "x" 0 = Outcome.ok ((none, fuse.ENOENT), emptyStore) ∧
    ListXAttr okEnv emptyStore "a" 0 = Outcome.ok ((none, fuse.ENOENT), emptyStore) ∧
    fuse.ENOENT ≠ fuse.OK :=
  ⟨rfl, rfl, by decide⟩

/-- C2 amended: for a path with no collection, `GetXAttr` returns no value
and `ListXAttr` returns a nil sequence, but both report the error status
`ENOENT` — the missing collection is signalled as an error, not normalized
to a successful empty result. -/
theorem C2_absent_path (env : TxEnv) (db : Store) (p n : String) (c cL : Nat)
    (hb : env.beginOK = true) (hm : db p = none) :
    GetXAttr env db p n c = Outcome.ok ((none, fuse.ENOENT), db) ∧
    ListXAttr env db p cL = Outcome.ok ((none, fuse.ENOENT), db) := by
  constructor <;> simp [GetXAttr, ListXAttr, boltBucket, hb, hm]

/-- C2 witness: the amended statement at a concrete never-written path. -/
theorem C2_absent_path_witness :
    GetXAttr okEnv emptyStore "b" "y" 1 = Outcome.ok ((none, fuse.ENOENT), emptyStore) ∧
    ListXAttr okEnv emptyStore "b" 1 = Outcome.ok ((none, fuse.ENOENT), emptyStore) :=
  C2_absent_path okEnv emptyStore "b" "y" 1 1 rfl rfl

/-- C3 (code bug): when `db.Begin(true)` fails, `boltBucket` hands its
caller a nil `*bolt.Tx` together with `EBUSY`, and `GetXAttr`, `ListXAttr`
and `RemoveXAttr` have each already registered `defer tx.Rollback()`; that
deferred call runs on the nil transaction and panics with a nil-pointer
dereference, so the busy branch crashes instead of returning `EBUSY`.
`SetXAttr`, which registers its rollback only after a successful begin,
returns `EBUSY` normally, confirming the intended behaviour was a clean
busy return. -/
theorem C3_busy_branch_panics :
    GetXAttr busyEnv emptyStore "a" "x" 0 = Outcome.panic ∧
    ListXAttr busyEnv emptyStore "a" 0 = Outcome.panic ∧
    RemoveXAttr busyEnv emptyStore "a" "x" 0 = Outcome.panic ∧
    SetXAttr busyEnv emptyStore "a" "x" [1] 0 0 = (fuse.EBUSY, emptyStore) :=
  ⟨rfl, rfl, rfl, rfl⟩

/-- C5 counterexample: a path whose collection exists but is empty is
observably different from a path with no collection — `ListXAttr` answers
`(empty list, OK)` for the former and `(nil, ENOENT)` for the latter. -/
theorem C5_counterexample :
    ListXAttr okEnv (updateStore emptyStore "a" []) "a" 0
      = Outcome.ok ((some [], fuse.OK), updateStore emptyStore "a" []) ∧
    ListXAttr okEnv emptyStore "a" 0 = Outcome.ok ((none, fuse.ENOENT), emptyStore) ∧
    ((some ([] : List String), fuse.OK) ≠ ((none : Option (List String)), fuse.ENOENT)) :=
  ⟨rfl, rfl, by decide⟩

/-- C5 amended: the two states differ in status. With an existing empty
collection, `Get` answers (no value, OK), `List` (empty list, OK) and
`Remove` commits with OK; with no collection each of the three answers
`ENOENT`. Empty and missing collections are therefore distinguishable. -/
theorem C5_empty_vs_missing (env : TxEnv) (db db2 : Store) (p n : String) (c : Nat)
    (hb : env.beginOK = true) (hc : env.commitOK = true)
    (he : db p = some []) (hm : db2 p = none) :
    GetXAttr env db p n c = Outcome.ok ((none, fuse.OK), db) ∧
    ListXAttr env db p c = Outcome.ok ((some [], fuse.OK), db) ∧
    RemoveXAttr env db p n c = Outcome.ok (fuse.OK, updateStore db p []) ∧
    GetXAttr env db2 p n c = Outcome.ok ((none, fuse.ENOENT), db2) ∧
    ListXAttr env db2 p c = Outcome.ok ((none, fuse.ENOENT), db2) ∧
    RemoveXAttr env db2 p n c = Outcome.ok (fuse.ENOENT, db2) ∧
    fuse.OK ≠ fuse.ENOENT := by
  refine ⟨?_, ?_, ?_, ?_, ?_, ?_, by decide⟩ <;>
    simp [GetXAttr, ListXAttr, RemoveXAttr, boltBucket, bucketGet, bucketDelete,
      hb, hc, he, hm]

/-- C5 witness: the amended statement at a concrete empty-bucket store
(reachable by a set followed by a remove) against the empty store. -/
theorem C5_empty_vs_missing_witness :
    GetXAttr okEnv (updateStore emptyStore "a" []) "a" "x" 0
      = Outcome.ok ((none, fuse.OK), updateStore emptyStore "a" []) ∧
    ListXAttr okEnv (updateStore emptyStore "a" []) "a" 0
      = Outcome.ok ((some [], fuse.OK), updateStore emptyStore "a" []) ∧
    RemoveXAttr okEnv (updateStore emptyStore "a" []) "a" "x" 0
      = Outcome.ok (fuse.OK, updateStore (updateStore emptyStore "a" []) "a" []) ∧
    GetXAttr okEnv emptyStore "a" "x" 0 = Outcome.ok ((none, fuse.ENOENT), emptyStore) ∧
    ListXAttr okEnv emptyStore "a" 0 = Outcome.ok ((none, fuse.ENOENT), emptyStore) ∧
    RemoveXAttr okEnv emptyStore "a" "x" 0 = Outcome.ok (fuse.ENOENT, emptyStore) ∧
    fuse.OK ≠ fuse.ENOENT :=
  C5_empty_vs_missing okEnv (updateStore emptyStore "a" []) emptyStore "a" "x" 0
    rfl rfl rfl rfl

/-- C9: `Rename` and `Unlink` are pure passthroughs — they forward the call
to the backing filesystem and leave the attribute store entirely untouched:
the collection keyed by the old path is neither relocated to the new path
nor purged, and no collection is modified. -/
theorem C9_rename_unlink_leave_store (bfs : FileSystem) (w : World)
    (oldName newName : String) (c : Nat) :
    (xattrFs.Rename bfs w oldName newName c).2.db = w.db ∧
    (xattrFs.Unlink bfs w oldName c).2.db = w.db :=
  ⟨rfl, rfl⟩

/-- C10: `SetXAttr` never reads its `flags` argument — two calls differing
only in flags return the identical status and leave the identical store,
so create-only / replace-only flag semantics are not honored. -/
theorem C10_flags_ignored (env : TxEnv) (db : Store) (p n : String) (v : Bytes)
    (c : Nat) (f1 f2 : Int) :
    SetXAttr env db p n v f1 c = SetXAttr env db p n v f2 c :=
  rfl

/-- A concrete backing filesystem whose `StatFs` answers a non-nil
statistics record, exhibiting that `xattrFs.StatFs` does not forward. -/
def statBfs : FileSystem where
  GetAttr := fun s _ _ => ((none, fuse.OK), s)
  Readlink := fun s _ _ => (("", fuse.OK), s)
  Mknod := fun s _ _ _ _ => (fuse.OK, s)
  Mkdir := fun s _ _ _ => (fuse.OK, s)
  Unlink := fun s _ _ => (fuse.OK, s)
  Rmdir := fun s _ _ => (fuse.OK, s)
  Symlink := fun s _ _ _ => (fuse.OK, s)
  Rename := fun s _ _ _ => (fuse.OK, s)
  Link := fun s _ _ _ => (fuse.OK, s)
  Chmod := fun s _ _ _ => (fuse.OK, s)
  Chown := fun s _ _ _ _ => (fuse.OK, s)
  Truncate := fun s _ _ _ => (fuse.OK, s)
  Open := fun s _ _ _ => ((none, fuse.OK), s)
  OpenDir := fun s _ _ => (([], fuse.OK), s)
  Access := fun s _ _ _ => (fuse.OK, s)
  Create := fun s _ _ _ _ => ((none, fuse.OK), s)
  Utimens := fun s _ _ _ _ => (fuse.OK, s)
  StatFs := fun s _ => (some 7, s)

/-- The world at process start: empty attribute store, initial backing
state. -/
def world0 : World := ⟨emptyStore, 0⟩

/-- C4 counterexample: the overlay's `StatFs` does not return the backing
filesystem's result — the backing answers `some 7` here while the overlay
unconditionally answers nil (src lines 187-190 return nil without calling
the embedded filesystem). -/
theorem C4_counterexample :
    (xattrFs.StatFs statBfs world0 "a").1 = none ∧
    (statBfs.StatFs world0.fs "a").1 = some 7 ∧
    ((none : Option StatfsOut) ≠ some 7) :=
  ⟨rfl, rfl, by decide⟩

/-- C4 amended: every explicitly overridden non-attribute operation except
`StatFs` returns the backing filesystem's result verbatim (operations not
overridden at all are forwarded by Go's struct embedding and are verbatim
by construction); `StatFs` never consults the backing filesystem and
always returns nil. -/
theorem C4_passthrough_except_statfs (bfs : FileSystem) (w : World) :
    (∀ p c, (xattrFs.GetAttr bfs w p c).1 = (bfs.GetAttr w.fs p c).1) ∧
    (∀ p c, (xattrFs.Readlink bfs w p c).1 = (bfs.Readlink w.fs p c).1) ∧
    (∀ p m d c, (xattrFs.Mknod bfs w p m d c).1 = (bfs.Mknod w.fs p m d c).1) ∧
    (∀ p m c, (xattrFs.Mkdir bfs w p m c).1 = (bfs.Mkdir w.fs p m c).1) ∧
    (∀ p c, (xattrFs.Unlink bfs w p c).1 = (bfs.Unlink w.fs p c).1) ∧
    (∀ p c, (xattrFs.Rmdir bfs w p c).1 = (bfs.Rmdir w.fs p c).1) ∧
    (∀ a b c, (xattrFs.Symlink bfs w a b c).1 = (bfs.Symlink w.fs a b c).1) ∧
    (∀ a b c, (xattrFs.Rename bfs w a b c).1 = (bfs.Rename w.fs a b c).1) ∧
    (∀ a b c, (xattrFs.Link bfs w a b c).1 = (bfs.Link w.fs a b c).1) ∧
    (∀ p m c, (xattrFs.Chmod bfs w p m c).1 = (bfs.Chmod w.fs p m c).1) ∧
    (∀ p u g c, (xattrFs.Chown bfs w p u g c).1 = (bfs.Chown w.fs p u g c).1) ∧
    (∀ p o c, (xattrFs.Truncate bfs w p o c).1 = (bfs.Truncate w.fs p o c).1) ∧
    (∀ p f c, (xattrFs.Open bfs w p f c).1 = (bfs.Open w.fs p f c).1) ∧
    (∀ p c, (xattrFs.OpenDir bfs w p c).1 = (bfs.OpenDir w.fs p c).1) ∧
    (∀ p m c, (xattrFs.Access bfs w p m c).1 = (bfs.Access w.fs p m c).1) ∧
    (∀ p f m c, (xattrFs.Create bfs w p f m c).1 = (bfs.Create w.fs p f m c).1) ∧
    (∀ p a m c, (xattrFs.Utimens bfs w p a m c).1 = (bfs.Utimens w.fs p a m c).1) ∧
    (∀ p, (xattrFs.StatFs bfs w p).1 = none) := by
  refine ⟨?_, ?_, ?_, ?_, ?_, ?_, ?_, ?_, ?_, ?_, ?_, ?_, ?_, ?_, ?_, ?_, ?_, ?_⟩ <;>
    intros <;> rfl

/-- Inversion of a successful remove when the path's bucket exists: the
committed store replaces that bucket by its deleted version. -/
theorem removeXAttr_ok_inv (env : TxEnv) (db db1 : Store) (p n : String)
    (c : Nat) (b0 : Bucket) (hdb : db p = some b0)
    (h : RemoveXAttr env db p n c = Outcome.ok (fuse.OK, db1)) :
    db1 = updateStore db p (bucketDelete b0 n) := by
  unfold RemoveXAttr boltBucket at h
  by_cases hb : env.beginOK = true
  · by_cases hc : env.commitOK = true
    · simp only [hb, hc, hdb, if_true] at h
      injection h with h2
      exact (congrArg Prod.snd h2).symm
    · simp only [hb, hdb, if_true, if_neg hc] at h
      injection h with h2
      exact absurd (congrArg Prod.fst h2) (by simp [fuse.EIO, fuse.OK])
  · simp only [if_neg hb] at h
    exact absurd h (by simp)

/-- C6: after a successful `Remove(p,n)` on a well-formed bucket, the next
`Get(p,n)` finds no value (status OK with a nil payload), and a second
`Remove(p,n)` of the now-absent name also returns OK — absence of the name
is not an error for Remove. -/
theorem C6_remove_idempotent (env env2 env3 : TxEnv) (db db1 : Store)
    (p n : String) (c c2 c3 : Nat) (b0 : Bucket)
    (hdb : db p = some b0) (hwf : BucketWF b0)
    (h2 : env2.beginOK = true) (h3b : env3.beginOK = true)
    (h3c : env3.commitOK = true)
    (hrm : RemoveXAttr env db p n c = Outcome.ok (fuse.OK, db1)) :
    GetXAttr env2 db1 p n c2 = Outcome.ok ((none, fuse.OK), db1) ∧
    ∃ db2, RemoveXAttr env3 db1 p n c3 = Outcome.ok (fuse.OK, db2) := by
  have hdb1 := removeXAttr_ok_inv env db db1 p n c b0 hdb hrm
  subst hdb1
  have hlook : updateStore db p (bucketDelete b0 n) p = some (bucketDelete b0 n) := by
    simp [updateStore]
  constructor
  · simp [GetXAttr, boltBucket, h2, hlook, bucketGet_delete_self b0 n hwf]
  · exact ⟨updateStore (updateStore db p (bucketDelete b0 n)) p
        (bucketDelete (bucketDelete b0 n) n),
      by simp [RemoveXAttr, boltBucket, h3b, h3c, hlook]⟩

/-- C6 witness: set `x` on `a`, remove it, observe `Get` finds nothing and
a second remove still answers OK. -/
theorem C6_remove_idempotent_witness :
    GetXAttr okEnv (updateStore (updateStore emptyStore "a" [("x", [1])]) "a"
        (bucketDelete [("x", [1])] "x")) "a" "x" 0
      = Outcome.ok ((none, fuse.OK),
          updateStore (updateStore emptyStore "a" [("x", [1])]) "a"
            (bucketDelete [("x", [1])] "x")) ∧
    ∃ db2, RemoveXAttr okEnv (updateStore (updateStore emptyStore "a" [("x", [1])]) "a"
        (bucketDelete [("x", [1])] "x")) "a" "x" 0 = Outcome.ok (fuse.OK, db2) :=
  C6_remove_idempotent okEnv okEnv okEnv (updateStore emptyStore "a" [("x", [1])])
    (updateStore (updateStore emptyStore "a" [("x", [1])]) "a"
      (bucketDelete [("x", [1])] "x"))
    "a" "x" 0 0 0 [("x", [1])] (by simp [updateStore]) (by simp [BucketWF])
    rfl rfl rfl rfl

/-- `GetXAttr` performs no write: whenever it returns at all, the store it
hands back is the one it was given (the source only reads through the
cursor and rolls its transaction back). -/
theorem getXAttr_store_unchanged (env : TxEnv) (db : Store) (p n : String)
    (c : Nat) (res : (Option Bytes × fuse.Status) × Store)
    (h : GetXAttr env db p n c = Outcome.ok res) : res.2 = db := by
  unfold GetXAttr at h
  cases hbb : boltBucket env db p with
  | busy =>
    simp only [hbb] at h
    exact Outcome.noConfusion h
  | missing =>
    simp only [hbb] at h
    injection h with h2
    exact (congrArg Prod.snd h2).symm
  | found b =>
    simp only [hbb] at h
    injection h with h2
    exact (congrArg Prod.snd h2).symm

/-- `ListXAttr` performs no write either. -/
theorem listXAttr_store_unchanged (env : TxEnv) (db : Store) (p : String)
    (c : Nat) (res : (Option (List String) × fuse.Status) × Store)
    (h : ListXAttr env db p c = Outcome.ok res) : res.2 = db := by
  unfold ListXAttr at h
  cases hbb : boltBucket env db p with
  | busy =>
    simp only [hbb] at h
    exact Outcome.noConfusion h
  | missing =>
    simp only [hbb] at h
    injection h with h2
    exact (congrArg Prod.snd h2).symm
  | found b =>
    simp only [hbb] at h
    injection h with h2
    exact (congrArg Prod.snd h2).symm

/-- C7: a successful `Set` on a path with no prior collection creates
exactly one collection — the bucket at that path, holding the written
entry when bolt's `Put` accepted the name and empty when `Put` refused it
(the source discards the `Put` error, so the freshly created bucket still
commits) — leaving every other path's entry untouched; and neither `Get`
nor `List` ever modifies the store: whenever either returns, the store it
returns is the store it was given. -/
theorem C7_lazy_creation (env : TxEnv) (db db1 : Store) (p n : String)
    (v : Bytes) (fl : Int) (c : Nat) (q : String)
    (envG : TxEnv) (dbG : Store) (pG nG : String) (cG : Nat)
    (resG : (Option Bytes × fuse.Status) × Store)
    (envL : TxEnv) (dbL : Store) (pL : String) (cL : Nat)
    (resL : (Option (List String) × fuse.Status) × Store)
    (hfresh : db p = none)
    (hset : SetXAttr env db p n v fl c = (fuse.OK, db1))
    (hG : GetXAttr envG dbG pG nG cG = Outcome.ok resG)
    (hL : ListXAttr envL dbL pL cL = Outcome.ok resL) :
    db1 p = some (if putOK n v = true then [(n, v)] else []) ∧
      (q ≠ p → db1 q = db q) ∧ resG.2 = dbG ∧ resL.2 = dbL := by
  obtain ⟨hb, hp, hc, hdb1⟩ := setXAttr_ok_inv env db db1 p n v fl c hset
  subst hdb1
  refine ⟨?_, fun hq => ?_, ?_, ?_⟩
  · simp [updateStore, hfresh, bucketPut]
  · simp [updateStore, hq]
  · exact getXAttr_store_unchanged envG dbG pG nG cG resG hG
  · exact listXAttr_store_unchanged envL dbL pL cL resL hL

/-- C7 witness: one set on a fresh path, one get and one list on an
arbitrary store, at concrete inputs. -/
theorem C7_lazy_creation_witness :
    (SetXAttr okEnv emptyStore "a" "x" [9] 0 0).2 "a"
      = some (if putOK "x" [9] = true then [("x", [9])] else []) ∧
    ("b" ≠ "a" → (SetXAttr okEnv emptyStore "a" "x" [9] 0 0).2 "b" = emptyStore "b") ∧
    (((none : Option Bytes), fuse.ENOENT), emptyStore).2 = emptyStore ∧
    (((none : Option (List String)), fuse.ENOENT), emptyStore).2 = emptyStore :=
  C7_lazy_creation okEnv emptyStore (SetXAttr okEnv emptyStore "a" "x" [9] 0 0).2
    "a" "x" [9] 0 0 "b" okEnv emptyStore "z" "w" 0 ((none, fuse.ENOENT), emptyStore)
    okEnv emptyStore "z" 0 ((none, fuse.ENOENT), emptyStore) rfl rfl rfl rfl

/-- The bucket at `p` after a chain of uncontended sets on `p` whose
name/value pairs all pass bolt's `Put` validation, when a bucket already
exists there. -/
theorem applySets_lookup (p : String) (hp : p ≠ "")
    (pairs : List (String × Bytes)) :
    ∀ (db : Store) (b0 : Bucket), (∀ pr ∈ pairs, putOK pr.1 pr.2 = true) →
      db p = some b0 → (applySets db p pairs) p = some (putMany b0 pairs) := by
  induction pairs with
  | nil => intro db b0 _ hdb; simpa [applySets, putMany] using hdb
  | cons hd rest ih =>
    obtain ⟨n, v⟩ := hd
    intro db b0 hok hdb
    have hn : putOK n v = true := hok (n, v) (List.mem_cons_self _ _)
    have hstep : (SetXAttr okEnv db p n v 0 0).2
        = updateStore db p (bucketPut b0 n v) := by
      simp [SetXAttr, okEnv, hp, hdb, hn]
    rw [applySets, hstep]
    exact ih (updateStore db p (bucketPut b0 n v)) (bucketPut b0 n v)
      (fun pr hpr => hok pr (List.mem_cons_of_mem _ hpr))
      (by simp [updateStore])

/-- The bucket at `p` after a nonempty chain of uncontended sets on a
previously unwritten `p`, all passing bolt's `Put` validation. -/
theorem applySets_lookup_fresh (p : String) (hp : p ≠ "") (n : String)
    (v : Bytes) (rest : List (String × Bytes)) (db : Store)
    (hn : putOK n v = true) (hok : ∀ pr ∈ rest, putOK pr.1 pr.2 = true)
    (hdb : db p = none) :
    (applySets db p ((n, v) :: rest)) p = some (putMany [] ((n, v) :: rest)) := by
  have hstep : (SetXAttr okEnv db p n v 0 0).2
      = updateStore db p (bucketPut [] n v) := by
    simp [SetXAttr, okEnv, hp, hdb, hn]
  rw [applySets, hstep, putMany]
  exact applySets_lookup p hp rest (updateStore db p (bucketPut [] n v))
    (bucketPut [] n v) hok (by simp [updateStore])

/-- C8 counterexample: a blank name breaks list completeness.  On the
fresh path `a`, `Set(a, "", [1])` reports success — bolt's `Put` refuses
the blank key but the source discards that error — so nothing is stored,
and `List(a)` then returns the empty list rather than the one-element set
holding the blank name that was successfully set. -/
theorem C8_counterexample :
    (SetXAttr okEnv emptyStore "a" "" [1] 0 0).1 = fuse.OK ∧
    ListXAttr okEnv (applySets emptyStore "a" [("", [1])]) "a" 0
      = Outcome.ok ((some [], fuse.OK), applySets emptyStore "a" [("", [1])]) ∧
    ("" : String) ∉ ([] : List String) :=
  ⟨rfl, rfl, by decide⟩

/-- C8 amended: starting from a path with no collection, after a nonempty
sequence of successful sets of distinct names each accepted by bolt's
`Put` (nonempty, within the key/value size limits; no intervening
removes), `List` on that path succeeds and returns exactly the set of
names written: each name once, no duplicates, no extras, in some order.
A name `Put` refuses is silently dropped — its set still reports `OK` —
and `List` omits it.  (`p ≠ ""` is what makes every set in the chain
succeed: the empty path is the one path on which `Set` always fails with
`EIO`.) -/
theorem C8_list_complete (db : Store) (p : String) (c : Nat)
    (pairs : List (String × Bytes))
    (hp : p ≠ "") (hfresh : db p = none)
    (hnd : (pairs.map Prod.fst).Nodup) (hne : pairs ≠ [])
    (hok : ∀ pr ∈ pairs, putOK pr.1 pr.2 = true) :
    ∃ l, ListXAttr okEnv (applySets db p pairs) p c
        = Outcome.ok ((some l, fuse.OK), applySets db p pairs) ∧
      l.Nodup ∧ (∀ m, m ∈ l ↔ m ∈ pairs.map Prod.fst) := by
  obtain ⟨⟨n, v⟩, rest, rfl⟩ := List.exists_cons_of_ne_nil hne
  have hB := applySets_lookup_fresh p hp n v rest db
    (hok (n, v) (List.mem_cons_self _ _))
    (fun pr hpr => hok pr (List.mem_cons_of_mem _ hpr)) hfresh
  refine ⟨(putMany [] ((n, v) :: rest)).map Prod.fst, ?_, ?_, ?_⟩
  · simp [ListXAttr, boltBucket, okEnv, hB]
  · exact nodup_keys_putMany [] _ (by simp [BucketWF])
  · intro m
    simpa using mem_keys_putMany [] ((n, v) :: rest) m

/-- C8 witness: two sets of distinct names `x`, `y` on the fresh path `a`;
the returned list holds exactly those two names. -/
theorem C8_list_complete_witness :
    ∃ l, ListXAttr okEnv (applySets emptyStore "a" [("x", [1]), ("y", [2])]) "a" 0
        = Outcome.ok ((some l, fuse.OK), applySets emptyStore "a" [("x", [1]), ("y", [2])]) ∧
      l.Nodup ∧ (∀ m, m ∈ l ↔ m ∈ ([("x", [1]), ("y", [2])] : List (String × Bytes)).map Prod.fst) :=
  C8_list_complete emptyStore "a" 0 [("x", [1]), ("y", [2])] (by decide) rfl
    (by decide) (by decide) (by decide)
